import Mathlib

/-!
Verification of the ship HTTP routing/middleware/lifecycle library.

The definitions below are a shallow embedding of the Go sources:
`route.go` (Route builder, header middleware, addRoute, static helpers),
the Group file (newGroup, Group, GroupNone), and the Runner file
(RegisterOnShutdown, Shutdown, runStopfs).  Paths and prefixes are
modelled as `List Char`; Go `panic` is modelled as `Except.error`;
the mutable `*Route` receiver captured by the header-check closure is
modelled by passing the route's current header-predicate list to the
registered handler at invocation time.
-/

/-- A classified HTTP error (ship's HTTPError): a status code and a message.
`ErrBadRequest.NewError(err)` is modelled as code 400 with the message. -/
structure HTTPError where
  code : Nat
  msg : String
deriving DecidableEq

/-- The outcome of opening/stat-ing/reading a file path through the OS,
as observed by `serveFileMetadata`: `os.Open` fails, `f.Stat` fails,
the target is a directory, reading (`io.Copy`) fails, or the content
is read successfully (with the size reported by `Stat`). -/
inductive FileOutcome where
  | openErr
  | statErr
  | isDir
  | readErr (statSize : Nat)
  | content (bytes : List Nat) (statSize : Nat)
deriving DecidableEq

/-- The request/response context seen by a handler: request headers
(`GetHeader`, empty string when absent), URL parameters, the filesystem
view used by the static-file handlers, and the response state written
through the context. -/
structure Ctx where
  reqHeader : String → String
  urlParam : String → String
  fileOutcome : String → FileOutcome
  respHeaders : List (String × String)
  respStatus : Option Nat
  respBody : Option (List Nat)

/-- A Go handler returns `error`; `none` models a nil error. -/
abbrev HResult := Option HTTPError

/-- ship's Handler: `func(*Context) error`.  The context is threaded
explicitly because handlers write the response through it. -/
abbrev Handler := Ctx → Ctx × HResult

/-- ship's Middleware: `func(Handler) Handler`. -/
abbrev Middleware := Handler → Handler

/-- The composition loop of `addRoute`:
`for i := middlewaresLen - 1; i >= 0; i-- { handler = middlewares[i](handler) }`.
`applyDownFrom ms n h` applies `ms[n-1], ms[n-2], ..., ms[0]` to `h` in
that order.  It is polymorphic because the loop only applies its
elements. -/
def applyDownFrom {α : Type _} (ms : List (α → α)) : Nat → α → α
  | 0, h => h
  | Nat.succ i, h => applyDownFrom ms i (ms.getD i id h)

/-- The full composition loop, started at `i = len(middlewares) - 1`. -/
def wrapAny {α : Type _} (ms : List (α → α)) (h : α) : α :=
  applyDownFrom ms ms.length h

theorem applyDownFrom_cons {α : Type _} (m : α → α) (ms : List (α → α))
    (n : Nat) (h : α) :
    applyDownFrom (m :: ms) (n + 1) h = m (applyDownFrom ms n h) := by
  induction n generalizing h with
  | zero => rfl
  | succ k ih =>
    show applyDownFrom (m :: ms) (k + 1) ((m :: ms).getD (k + 1) id h)
        = m (applyDownFrom ms (k + 1) h)
    rw [List.getD_cons_succ]
    exact ih (ms.getD k id h)

theorem wrapAny_nil {α : Type _} (h : α) : wrapAny ([] : List (α → α)) h = h := rfl

theorem wrapAny_cons {α : Type _} (m : α → α) (ms : List (α → α)) (h : α) :
    wrapAny (m :: ms) h = m (wrapAny ms h) :=
  applyDownFrom_cons m ms ms.length h

theorem wrapAny_append_single {α : Type _} (ms : List (α → α)) (m : α → α) (h : α) :
    wrapAny (ms ++ [m]) h = wrapAny ms (m h) := by
  induction ms with
  | nil => simp [wrapAny_nil, wrapAny_cons]
  | cons m0 ms ih => rw [List.cons_append, wrapAny_cons, ih, wrapAny_cons]

/-- Events recorded by the instrumented middlewares used to observe
execution order: entering middleware `k`, the terminal handler running,
leaving middleware `k`. -/
inductive TraceEv where
  | enter (k : Nat)
  | base
  | leave (k : Nat)
deriving DecidableEq

/-- Handler type of the instrumentation: a trace transformer. -/
abbrev TraceFn := List TraceEv → List TraceEv

/-- Instrumented middleware `k`: records `enter k`, runs the inner
handler, records `leave k` on the way out. -/
def traceMW (k : Nat) : TraceFn → TraceFn :=
  fun next log => next (log ++ [TraceEv.enter k]) ++ [TraceEv.leave k]

/-- Instrumented terminal handler: records `base`. -/
def traceBase : TraceFn := fun log => log ++ [TraceEv.base]

theorem wrapAny_trace (ks : List Nat) (log : List TraceEv) :
    wrapAny (ks.map traceMW) traceBase log
      = log ++ ks.map TraceEv.enter ++ [TraceEv.base]
          ++ (ks.map TraceEv.leave).reverse := by
  induction ks generalizing log with
  | nil => simp [wrapAny_nil, traceBase]
  | cons k ks ih =>
    rw [List.map_cons, wrapAny_cons]
    show (wrapAny (ks.map traceMW) traceBase (log ++ [TraceEv.enter k]))
        ++ [TraceEv.leave k] = _
    rw [ih]
    simp [List.append_assoc]

/-- One header predicate (`kvalues` in route.go): a canonical header key
and an optional list of acceptable values. -/
structure Kvalues where
  key : String
  values : List String
deriving DecidableEq

/-- Token characters accepted by `http.CanonicalHeaderKey`
(`validHeaderFieldByte`): letters, digits, and the RFC 7230 token
specials. -/
def validHeaderFieldChar (c : Char) : Bool :=
  c.isAlpha || c.isDigit ||
    [Char.ofNat 33, Char.ofNat 35, Char.ofNat 36, Char.ofNat 37, Char.ofNat 38,
     Char.ofNat 39, Char.ofNat 42, Char.ofNat 43, Char.ofNat 45, Char.ofNat 46,
     Char.ofNat 94, Char.ofNat 95, Char.ofNat 96, Char.ofNat 124,
     Char.ofNat 126].contains c

/-- The canonicalisation pass of `http.CanonicalHeaderKey`: upper-case
the first letter and every letter following a hyphen, lower-case every
other letter.  `upper` says whether the next character starts a word. -/
def canonChars (upper : Bool) : List Char → List Char
  | [] => []
  | c :: rest =>
    let c2 := if upper && c.isLower then c.toUpper
              else if !upper && c.isUpper then c.toLower
              else c
    c2 :: canonChars (c == '-') rest

/-- `http.CanonicalHeaderKey`: returns the key unchanged if it holds a
non-token character, otherwise canonicalises the casing. -/
def canonicalHeaderKey (s : String) : String :=
  if s.toList.all validHeaderFieldChar then String.mk (canonChars true s.toList)
  else s

/-- The loop inside the handler produced by `buildHeaderMiddleware`,
over the route's header predicates: a predicate with no values rejects
when the header is absent and otherwise falls through; a predicate with
values returns `next(ctx)` eagerly on a value match and rejects
otherwise; a fully traversed list runs `next(ctx)`. -/
def headerLoop (hs : List Kvalues) (next : Handler) (ctx : Ctx) : Ctx × HResult :=
  match hs with
  | [] => next ctx
  | kv :: rest =>
    let value := ctx.reqHeader kv.key
    match kv.values with
    | [] =>
      if value = "" then (ctx, some ⟨400, "missing the header " ++ kv.key⟩)
      else headerLoop rest next ctx
    | _ :: _ =>
      if kv.values.contains value then next ctx
      else (ctx, some ⟨400, "invalid header " ++ kv.key ++ ": " ++ value⟩)

/-- `buildHeaderMiddleware`: nil when the route has no header
predicates, otherwise the middleware running `headerLoop`. -/
def buildHeaderMiddleware (hs : List Kvalues) : Option Middleware :=
  if hs = [] then none
  else some (fun next ctx => headerLoop hs next ctx)

/-- The Route builder state (`Route` in route.go, without the back
references to Ship and RouteGroup). -/
structure RouteB where
  host : String
  path : List Char
  name : String
  mdwares : List Middleware
  headers : List Kvalues

/-- `Route.Use`: appends middlewares. -/
def RouteB.use (r : RouteB) (ms : List Middleware) : RouteB :=
  { r with mdwares := r.mdwares ++ ms }

/-- `Route.NoMiddlewares`: clears the middlewares. -/
def RouteB.noMiddlewares (r : RouteB) : RouteB := { r with mdwares := [] }

/-- `Route.Name`: sets the route name. -/
def RouteB.setName (r : RouteB) (s : String) : RouteB := { r with name := s }

/-- `Route.Host`: sets the route host. -/
def RouteB.setHost (r : RouteB) (s : String) : RouteB := { r with host := s }

/-- `Route.HasHeader`: appends a predicate under the canonical key. -/
def RouteB.hasHeader (r : RouteB) (k : String) (vs : List String) : RouteB :=
  { r with headers := r.headers ++ [⟨canonicalHeaderKey k, vs⟩] }

/-- The middleware count checked against `Ship.MiddlewareMaxNum`: the
route middlewares plus the synthesized header middleware when
predicates exist. -/
def composedMWLen (r : RouteB) : Nat :=
  r.mdwares.length + (match r.headers with | [] => 0 | _ :: _ => 1)

/-- The handler value `addRoute` hands to the router.  The header-check
closure built by `buildHeaderMiddleware` captures the `*Route` receiver
and reads `r.headers` on every request, so the registered handler takes
the route's header-predicate list current at invocation time; whether a
header middleware is installed at all is decided from the snapshot at
registration. -/
def regHandlerOf (r : RouteB) (h : Handler) : List Kvalues → Handler :=
  match r.headers with
  | [] => fun _ => wrapAny r.mdwares h
  | _ :: _ => fun live => wrapAny (r.mdwares ++ [fun next => headerLoop live next]) h

/-- One row of the route table of the Ship: what `ship.addRoute`
receives.  The handler is parameterised by the live header-predicate
list of the owning route (see `regHandlerOf`). -/
structure RegEntry where
  name : String
  host : String
  path : List Char
  method : String
  handler : List Kvalues → Handler

/-- `strings.Index(path, "//") != -1`. -/
def hasDoubleSlash : List Char → Bool
  | '/' :: '/' :: _ => true
  | _ :: rest => hasDoubleSlash rest
  | [] => false

/-- `Route.addRoute`: validates (nil handler, no methods, empty or
non-absolute path, duplicate `//`, middleware ceiling), composes the
middlewares innermost-header-check-last, and registers the wrapped
handler once per requested method.  Go `panic` is `Except.error`. -/
def addRoute (r : RouteB) (maxMW : Nat) (nm hst : String) (p : List Char)
    (handler : Option Handler) (methods : List String) :
    Except String (List RegEntry) :=
  match handler with
  | none => Except.error "handler must not be nil"
  | some h =>
    if methods.length = 0 then Except.error "the route requires methods"
    else if p.length = 0 ∨ p.head? ≠ some '/' then
      Except.error "path must start with /"
    else if hasDoubleSlash p then
      Except.error "bad path contains duplicate //"
    else if composedMWLen r > maxMW then
      Except.error "the number of middlewares has exceeded the maximum"
    else Except.ok (methods.map (fun m =>
      { name := nm, host := hst, path := p, method := m,
        handler := regHandlerOf r h }))

/-- `Route.Method`: forwards the builder's name, host and path. -/
def RouteB.method (r : RouteB) (maxMW : Nat) (handler : Option Handler)
    (methods : List String) : Except String (List RegEntry) :=
  addRoute r maxMW r.name r.host r.path handler methods

/-- `strings.TrimSuffix(s, "/")`: drops one trailing slash if present. -/
def trimSuffixSlash (p : List Char) : List Char :=
  if p.getLast? = some '/' then p.dropLast else p

/-- The Group state (`Group` in the group file, without the Ship back
reference): the accumulated absolute path and the middlewares. -/
structure GroupB where
  pfx : List Char
  mdwares : List Middleware

/-- `newGroup(ship, pprefix, prefix, middlewares...)`: trims a trailing
slash, fails fatally on an empty or non-absolute result, and stores the
parent path concatenated with the trimmed one. -/
def newGroup (pp p : List Char) (ms : List Middleware) : Except String GroupB :=
  let p2 := trimSuffixSlash p
  if p2.length = 0 then Except.error "the prefix must not be empty"
  else if p2.head? ≠ some '/' then Except.error "prefix must start with /"
  else Except.ok { pfx := pp ++ p2, mdwares := ms }

/-- `Group.Group`: child scope inheriting the parent middlewares. -/
def GroupB.group (g : GroupB) (p : List Char) (ms : List Middleware) :
    Except String GroupB :=
  newGroup g.pfx p (g.mdwares ++ ms)

/-- `Group.GroupNone`: child scope with only the newly given middlewares. -/
def GroupB.groupNone (g : GroupB) (p : List Char) (ms : List Middleware) :
    Except String GroupB :=
  newGroup g.pfx p ms

/-- Repeatedly descends through child groups created by `Group.Group`,
one (path, middlewares) specification per generation. -/
def descendGroups (g : GroupB) :
    List (List Char × List Middleware) → Except String GroupB
  | [] => Except.ok g
  | (p, ms) :: rest =>
    match g.group p ms with
    | Except.error e => Except.error e
    | Except.ok child => descendGroups child rest

/-- One registered shutdown hook wrapped by `NewOnceRunner`: a hook id
and whether it already ran. -/
structure OnceSt where
  hid : Nat
  ran : Bool
deriving DecidableEq

/-- Observable lifecycle events: a hook body executing, and
`close(r.done)` releasing the completion gate. -/
inductive REv where
  | hook (i : Nat)
  | closeDone
deriving DecidableEq

/-- Modelled from the spec: `OnceRunner` is not under src; the spec says
each hook is wrapped so repeated invocation executes the underlying
function at most once.  `Run` executes the body only when it has not
run yet. -/
def runOnceHook (o : OnceSt) : OnceSt × List REv :=
  if o.ran then (o, []) else ({ o with ran := true }, [REv.hook o.hid])

/-- The loop body of `runStopfs`: iterates the registered hooks from the
last index down to index 0, running each one-shot hook. -/
def runStopfsLoop : List OnceSt → List OnceSt × List REv
  | [] => ([], [])
  | h :: rest =>
    let r := runStopfsLoop rest
    let o := runOnceHook h
    (o.1 :: r.1, r.2 ++ o.2)

/-- `Runner.runStopfs`: runs the hook loop, then `defer close(r.done)`
releases the completion gate after the loop has finished. -/
def runStopfs (hooks : List OnceSt) : List OnceSt × List REv :=
  let r := runStopfsLoop hooks
  (r.1, r.2 ++ [REv.closeDone])

/-- `Runner.RegisterOnShutdown`: appends each function wrapped in a
fresh `OnceRunner`. -/
def registerOnShutdown (hooks : List OnceSt) (fs : List Nat) : List OnceSt :=
  hooks ++ fs.map (fun i => { hid := i, ran := false })

/-- The Runner state used by `Shutdown`: whether `r.Server` is set,
whether the `r.stop` one-shot already ran, the registered hooks, and
whether `r.done` is closed. -/
structure RunnerM where
  serverSet : Bool
  stopRan : Bool
  hooks : List OnceSt
  doneClosed : Bool

/-- `r.stop.Run()`: the one-shot guard around `runStopfs`. -/
def stopRun (r : RunnerM) : RunnerM × List REv :=
  if r.stopRan then (r, [])
  else
    let h := runStopfs r.hooks
    ({ r with stopRan := true, hooks := h.1, doneClosed := true }, h.2)

/-- `Runner.Shutdown`: errors out before anything else when no server
has been set; otherwise shuts the server down (its error is the
external `serverErr`) and triggers the one-shot hook sequence. -/
def shutdown (r : RunnerM) (serverErr : Option String) :
    RunnerM × List REv × Option String :=
  if r.serverSet = false then (r, [], some "the server has not been started")
  else
    let s := stopRun r
    (s.1, s.2, serverErr)

/-- One lowercase hexadecimal digit. -/
def hexDigit (n : Nat) : Char :=
  if n < 10 then Char.ofNat (48 + n) else Char.ofNat (87 + n)

/-- `fmt.Sprintf("%x", bytes)`: two lowercase hex digits per byte. -/
def hexOfBytes (bs : List Nat) : String :=
  String.mk ((bs.map (fun b => [hexDigit (b / 16 % 16), hexDigit (b % 16)])).flatten)

/-- Modelled from the spec: `Context.SetHeader` is outside src; the
spec's handler contract lets a handler write response headers.  Setting
replaces any previous value of the key. -/
def Ctx.setHeader (c : Ctx) (k v : String) : Ctx :=
  { c with respHeaders := (k, v) :: c.respHeaders.filter (fun p => p.1 ≠ k) }

/-- Modelled from the spec: `Context.NoContent` is outside src; the
spec says the metadata endpoint answers with a status and no body. -/
def Ctx.noContent (c : Ctx) (code : Nat) : Ctx × HResult :=
  ({ c with respStatus := some code, respBody := none }, none)

/-- `Route.serveFileMetadata`: a failed open, stat or read returns a
500-classified error; a directory delegates to the not-found handler
`nf`; otherwise the content hash (crypto/md5 is external, abstracted as
`hash`) becomes the Etag header, the stat size the Content-Length
header, and the response is 200 with no body. -/
def serveFileMetadata (hash : List Nat → List Nat) (nf : Handler)
    (filename : String) : Handler :=
  fun ctx =>
    match ctx.fileOutcome filename with
    | FileOutcome.openErr => (ctx, some ⟨500, "open error"⟩)
    | FileOutcome.statErr => (ctx, some ⟨500, "stat error"⟩)
    | FileOutcome.isDir => nf ctx
    | FileOutcome.readErr _ => (ctx, some ⟨500, "read error"⟩)
    | FileOutcome.content bytes size =>
      ((ctx.setHeader "Etag" (hexOfBytes (hash bytes))).setHeader
          "Content-Length" (Nat.repr size)).noContent 200

/-- Modelled from the spec: `Context.File` is outside src; the spec says
the GET handler streams the file content and reports not-found when the
target is a directory (not-found likewise when it cannot be opened). -/
def ctxFile (nf : Handler) (filename : String) : Handler :=
  fun ctx =>
    match ctx.fileOutcome filename with
    | FileOutcome.content bytes _ =>
      ({ ctx with respStatus := some 200, respBody := some bytes }, none)
    | _ => nf ctx

/-- The capabilities of an opened `http.File` that the wrapper touches:
reading content and listing a directory (`Readdir`). -/
structure HFile where
  readF : Nat → List Nat × Option String
  readdirF : Int → List String × Option String

/-- `notDirFile`: embeds the underlying file but overrides `Readdir`
to return `(nil, nil)` for every count. -/
def notDirFile (f : HFile) : HFile :=
  { f with readdirF := fun _ => ([], none) }

/-- `onlyFileFS.Open`: propagates an open error, otherwise wraps the
opened file in `notDirFile`. -/
def onlyFileFSOpen (fs : String → Except String HFile) (nm : String) :
    Except String HFile :=
  match fs nm with
  | Except.error e => Except.error e
  | Except.ok f => Except.ok (notDirFile f)

/-- The backtracking step of Go `path.Clean` for a `..` element: with
the output kept reversed and of length `w + 1` where `lp` is the char
at index `w`, pop while `w > dotdot` and the char is not a slash. -/
def cleanBackAux (lp : Char) (out : List Char) (dd : Nat) : List Char :=
  match out with
  | [] => []
  | c :: rest => if dd ≤ rest.length ∧ lp ≠ '/' then cleanBackAux c rest dd else out

/-- Entry point of the backtrack: the initial `out.w--`. -/
def cleanBack (out : List Char) (dd : Nat) : List Char :=
  match out with
  | [] => []
  | c :: rest => cleanBackAux c rest dd

/-- The segment copy of `path.Clean`'s default case: the characters up
to the next slash, and the remainder. -/
def cleanSeg : List Char → List Char × List Char
  | [] => ([], [])
  | c :: rest =>
    if c = '/' then ([], c :: rest)
    else
      let s := cleanSeg rest
      (c :: s.1, s.2)

theorem cleanSeg_length_le (cs : List Char) : (cleanSeg cs).2.length ≤ cs.length := by
  induction cs with
  | nil => simp [cleanSeg]
  | cons c rest ih =>
    by_cases h : c = '/'
    · simp [cleanSeg, h]
    · simp [cleanSeg, h]
      omega

/-- The main loop of Go `path.Clean` over the remaining input, with the
output accumulated in reverse and `dd` the `dotdot` barrier.  The fuel
starts at the input length; every iteration consumes at least one
character, so the fuel never runs out. -/
def cleanLoop (rooted : Bool) : Nat → List Char → List Char → Nat → List Char
  | 0, _, out, _ => out
  | Nat.succ fuel, rem, out, dd =>
    match rem with
    | [] => out
    | '/' :: rest => cleanLoop rooted fuel rest out dd
    | '.' :: rest =>
      match rest with
      | [] => cleanLoop rooted fuel [] out dd
      | '/' :: _ => cleanLoop rooted fuel rest out dd
      | '.' :: rest2 =>
        if rest2 = [] ∨ rest2.head? = some '/' then
          if dd < out.length then cleanLoop rooted fuel rest2 (cleanBack out dd) dd
          else if rooted = false then
            let out2 := '.' :: '.' :: (if 0 < out.length then '/' :: out else out)
            cleanLoop rooted fuel rest2 out2 out2.length
          else cleanLoop rooted fuel rest2 out dd
        else
          let s := cleanSeg ('.' :: rest)
          let out2 := if (rooted ∧ out.length ≠ 1) ∨ (rooted = false ∧ out.length ≠ 0)
                      then '/' :: out else out
          cleanLoop rooted fuel s.2 (s.1.reverse ++ out2) dd
      | _ :: _ =>
        let s := cleanSeg ('.' :: rest)
        let out2 := if (rooted ∧ out.length ≠ 1) ∨ (rooted = false ∧ out.length ≠ 0)
                    then '/' :: out else out
        cleanLoop rooted fuel s.2 (s.1.reverse ++ out2) dd
    | c :: rest =>
      let s := cleanSeg (c :: rest)
      let out2 := if (rooted ∧ out.length ≠ 1) ∨ (rooted = false ∧ out.length ≠ 0)
                  then '/' :: out else out
      cleanLoop rooted fuel s.2 (s.1.reverse ++ out2) dd

/-- Go `path.Clean` on char lists. -/
def pathClean (p : List Char) : List Char :=
  match p with
  | [] => ['.']
  | c :: _ =>
    let rooted := c = '/'
    let rem := if rooted then p.drop 1 else p
    let out0 : List Char := if rooted then ['/'] else []
    let dd0 := if rooted then 1 else 0
    let out := cleanLoop rooted p.length rem out0 dd0
    if out.length = 0 then ['.'] else out.reverse

/-- Go `path.Join` for two elements: empty elements at the front are
skipped, the rest joined with a slash and cleaned. -/
def goPathJoin2 (a b : List Char) : List Char :=
  if a ≠ [] then pathClean (a ++ '/' :: b)
  else if b ≠ [] then pathClean b
  else []

/-- The handler `StaticFS` registers: opening the `*` parameter through
the filesystem decides not-found, otherwise the external
`http.FileServer` (parameter `fsrv`) serves the request and the handler
returns nil. -/
def staticFSHandler (fs : String → Except String HFile) (nf : Handler)
    (fsrv : Ctx → Ctx) : Handler :=
  fun ctx =>
    match fs (ctx.urlParam "*") with
    | Except.error _ => nf ctx
    | Except.ok _ => (fsrv ctx, none)

/-- `Route.StaticFile`: refuses `:`/`*` in the path, then registers the
GET streaming handler and the HEAD metadata handler on the same path. -/
def staticFile (r : RouteB) (maxMW : Nat) (hash : List Nat → List Nat)
    (nf : Handler) (filePath : String) : Except String (List RegEntry) :=
  if r.path.contains ':' ∨ r.path.contains '*' then
    Except.error "URL parameters cannot be used when serving a static file"
  else
    match addRoute r maxMW "" r.host r.path (some (ctxFile nf filePath)) ["GET"] with
    | Except.error e => Except.error e
    | Except.ok e1 =>
      match addRoute r maxMW "" r.host r.path
          (some (serveFileMetadata hash nf filePath)) ["HEAD"] with
      | Except.error e => Except.error e
      | Except.ok e2 => Except.ok (e1 ++ e2)

/-- `Route.StaticFS`: refuses `:`/`*` in the path, then registers the
file-serving handler for HEAD and GET under `path.Join(r.path, "/*")`. -/
def staticFS (r : RouteB) (maxMW : Nat) (fs : String → Except String HFile)
    (nf : Handler) (fsrv : Ctx → Ctx) : Except String (List RegEntry) :=
  if r.path.contains ':' ∨ r.path.contains '*' then
    Except.error "URL parameters cannot be used when serving a static file"
  else
    addRoute r maxMW "" r.host (goPathJoin2 r.path ['/', '*'])
      (some (staticFSHandler fs nf fsrv)) ["HEAD", "GET"]

/-- `Route.Static`: `StaticFS` over the `onlyFileFS` wrapper of the
directory filesystem (`http.Dir` is external, parameter `dirFS`). -/
def RouteB.static (r : RouteB) (maxMW : Nat)
    (dirFS : String → Except String HFile) (nf : Handler) (fsrv : Ctx → Ctx) :
    Except String (List RegEntry) :=
  staticFS r maxMW (onlyFileFSOpen dirFS) nf fsrv

/-- Inversion of a successful `addRoute`: the registered rows are one
per requested method, all carrying the composed handler. -/
theorem addRoute_ok {r : RouteB} {maxMW : Nat} {nm hst : String} {p : List Char}
    {h : Handler} {methods : List String} {entries : List RegEntry}
    (hk : addRoute r maxMW nm hst p (some h) methods = Except.ok entries) :
    entries = methods.map (fun m =>
      { name := nm, host := hst, path := p, method := m,
        handler := regHandlerOf r h }) := by
  simp only [addRoute] at hk
  split at hk
  · exact absurd hk (by simp)
  · split at hk
    · exact absurd hk (by simp)
    · split at hk
      · exact absurd hk (by simp)
      · split at hk
        · exact absurd hk (by simp)
        · exact (Except.ok.injEq _ _).mp hk.symm

/-- C1: the handler registered by Route method-selection is the nesting
`m1 (m2 (... mn h))`: the composition loop of addRoute is the identity
on the empty middleware list and peels middlewares off the front as
outermost decorators; instrumented middlewares therefore run
enter-in-order, then the terminal handler, then unwind in reverse; and
for a route without header predicates every registered row carries
exactly `wrapAny r.mdwares h`. -/
theorem c1_middleware_nesting :
    (∀ h : Handler, wrapAny ([] : List Middleware) h = h)
    ∧ (∀ (m : Middleware) (ms : List Middleware) (h : Handler),
        wrapAny (m :: ms) h = m (wrapAny ms h))
    ∧ (∀ ks : List Nat,
        wrapAny (ks.map traceMW) traceBase []
          = ks.map TraceEv.enter ++ [TraceEv.base]
            ++ (ks.map TraceEv.leave).reverse)
    ∧ (∀ (r : RouteB) (maxMW : Nat) (nm hst : String) (p : List Char)
        (h : Handler) (methods : List String) (entries : List RegEntry),
        r.headers = [] →
        addRoute r maxMW nm hst p (some h) methods = Except.ok entries →
        ∀ e ∈ entries, ∀ live, e.handler live = wrapAny r.mdwares h) := by
  refine ⟨fun h => rfl, wrapAny_cons, ?_, ?_⟩
  · intro ks
    simpa using wrapAny_trace ks []
  · intro r maxMW nm hst p h methods entries hhd hok e he live
    rcases List.mem_map.mp (addRoute_ok hok ▸ he) with ⟨m, _, rfl⟩
    simp only [regHandlerOf, hhd]

/-- A concrete terminal handler that succeeds without touching the
response. -/
def sampleHandler : Handler := fun ctx => (ctx, none)

/-- A concrete request context: header X-Key present with value v,
every other header absent. -/
def sampleCtx : Ctx :=
  { reqHeader := fun k => if k = "X-Key" then "v" else ""
    urlParam := fun _ => ""
    fileOutcome := fun _ => FileOutcome.openErr
    respHeaders := []
    respStatus := none
    respBody := none }

def c1route : RouteB :=
  { host := "", path := ['/', 'a'], name := "", mdwares := [], headers := [] }

theorem c1_middleware_nesting_witness :
    (RegEntry.mk "" "" ['/', 'a'] "GET" (regHandlerOf c1route sampleHandler)).handler []
      = wrapAny c1route.mdwares sampleHandler :=
  c1_middleware_nesting.2.2.2 c1route 2 "" "" ['/', 'a'] sampleHandler ["GET"]
    [RegEntry.mk "" "" ['/', 'a'] "GET" (regHandlerOf c1route sampleHandler)]
    rfl rfl _ (List.mem_singleton_self _) []


/-- Unfolding of `addRoute` on a non-nil handler: the guard cascade. -/
theorem addRoute_some (r : RouteB) (maxMW : Nat) (nm hst : String)
    (p : List Char) (h : Handler) (methods : List String) :
    addRoute r maxMW nm hst p (some h) methods
      = if methods.length = 0 then Except.error "the route requires methods"
        else if p.length = 0 ∨ p.head? ≠ some '/' then
          Except.error "path must start with /"
        else if hasDoubleSlash p then
          Except.error "bad path contains duplicate //"
        else if composedMWLen r > maxMW then
          Except.error "the number of middlewares has exceeded the maximum"
        else Except.ok (methods.map (fun m =>
          { name := nm, host := hst, path := p, method := m,
            handler := regHandlerOf r h })) := rfl

/-- C2: the synthesized header-check middleware walks the predicates in
registration order: an empty-value predicate whose header is absent
rejects immediately with a 400 error; a value-set predicate that
matches calls the inner handler at once, skipping the rest; a value-set
predicate that does not match rejects with a 400 error; a fully
traversed list runs the inner handler; and for a non-empty predicate
list `buildHeaderMiddleware` is exactly this loop. -/
theorem c2_header_predicate_semantics :
    ∀ (next : Handler) (ctx : Ctx) (kv : Kvalues) (rest hs : List Kvalues),
      (kv.values = [] → ctx.reqHeader kv.key = "" →
        headerLoop (kv :: rest) next ctx
          = (ctx, some ⟨400, "missing the header " ++ kv.key⟩))
      ∧ (kv.values ≠ [] → kv.values.contains (ctx.reqHeader kv.key) = true →
        headerLoop (kv :: rest) next ctx = next ctx)
      ∧ (kv.values ≠ [] → kv.values.contains (ctx.reqHeader kv.key) = false →
        headerLoop (kv :: rest) next ctx
          = (ctx, some ⟨400,
              "invalid header " ++ kv.key ++ ": " ++ ctx.reqHeader kv.key⟩))
      ∧ ((∀ kv2 ∈ hs, kv2.values = [] ∧ ctx.reqHeader kv2.key ≠ "") →
        headerLoop hs next ctx = next ctx)
      ∧ (hs ≠ [] →
        buildHeaderMiddleware hs = some (fun nx c => headerLoop hs nx c)) := by
  intro next ctx kv rest hs
  refine ⟨?_, ?_, ?_, ?_, ?_⟩
  · intro hv habs
    simp [headerLoop, hv, habs]
  · intro hv hc
    match hvals : kv.values with
    | [] => exact absurd hvals hv
    | v :: vs =>
      have hc2 : ((v :: vs).contains (ctx.reqHeader kv.key)) = true := hvals ▸ hc
      simp only [headerLoop, hvals]
      rw [if_pos hc2]
  · intro hv hc
    match hvals : kv.values with
    | [] => exact absurd hvals hv
    | v :: vs =>
      have hc2 : ((v :: vs).contains (ctx.reqHeader kv.key)) = false := hvals ▸ hc
      simp only [headerLoop, hvals]
      rw [if_neg (by simp only [hc2]; exact Bool.false_ne_true)]
  · intro hall
    induction hs with
    | nil => rfl
    | cons kv2 rest2 ih =>
      have h2 := hall kv2 (List.mem_cons_self kv2 rest2)
      simp only [headerLoop, h2.1]
      rw [if_neg h2.2]
      exact ih (fun x hx => hall x (List.mem_cons_of_mem kv2 hx))
  · intro hne
    simp [buildHeaderMiddleware, hne]

/-- A concrete request context with every header absent. -/
def emptyCtx : Ctx :=
  { reqHeader := fun _ => ""
    urlParam := fun _ => ""
    fileOutcome := fun _ => FileOutcome.openErr
    respHeaders := []
    respStatus := none
    respBody := none }

theorem c2_header_predicate_semantics_witness :
    headerLoop [⟨"X-Key", []⟩] sampleHandler emptyCtx
        = (emptyCtx, some ⟨400, "missing the header X-Key"⟩)
    ∧ headerLoop [⟨"X-Key", ["v1", "v"]⟩, ⟨"X-Never", []⟩] sampleHandler sampleCtx
        = sampleHandler sampleCtx
    ∧ headerLoop [⟨"X-Key", ["v1", "v2"]⟩] sampleHandler sampleCtx
        = (sampleCtx, some ⟨400, "invalid header X-Key: v"⟩)
    ∧ headerLoop [⟨"X-Key", []⟩] sampleHandler sampleCtx = sampleHandler sampleCtx
    ∧ buildHeaderMiddleware [⟨"X-Key", []⟩]
        = some (fun nx c => headerLoop [⟨"X-Key", []⟩] nx c) :=
  ⟨(c2_header_predicate_semantics sampleHandler emptyCtx ⟨"X-Key", []⟩ [] []).1
      rfl rfl,
   (c2_header_predicate_semantics sampleHandler sampleCtx ⟨"X-Key", ["v1", "v"]⟩
      [⟨"X-Never", []⟩] []).2.1 (by decide) (by decide),
   (c2_header_predicate_semantics sampleHandler sampleCtx ⟨"X-Key", ["v1", "v2"]⟩
      [] []).2.2.1 (by decide) (by decide),
   (c2_header_predicate_semantics sampleHandler sampleCtx ⟨"X-Key", []⟩ []
      [⟨"X-Key", []⟩]).2.2.2.1 (by decide),
   (c2_header_predicate_semantics sampleHandler sampleCtx ⟨"X-Key", []⟩ []
      [⟨"X-Key", []⟩]).2.2.2.2 (by decide)⟩

/-- C3: addRoute fails fatally exactly when the handler is nil, no
methods are given, the path is empty or not absolute, the path holds
`//`, or the composed middleware count (route middlewares plus the
synthesized header check when predicates exist) exceeds the configured
maximum; otherwise it registers the wrapped handler once for every
requested method. -/
theorem c3_addRoute_validation :
    ∀ (r : RouteB) (maxMW : Nat) (nm hst : String) (p : List Char)
      (handler : Option Handler) (methods : List String),
      ((∃ msg, addRoute r maxMW nm hst p handler methods = Except.error msg)
        ↔ handler = none ∨ methods = [] ∨ p = [] ∨ p.head? ≠ some '/'
          ∨ hasDoubleSlash p = true ∨ composedMWLen r > maxMW)
      ∧ (∀ h, handler = some h →
        ¬(methods = [] ∨ p = [] ∨ p.head? ≠ some '/' ∨ hasDoubleSlash p = true
          ∨ composedMWLen r > maxMW) →
        addRoute r maxMW nm hst p handler methods
          = Except.ok (methods.map (fun m =>
              { name := nm, host := hst, path := p, method := m,
                handler := regHandlerOf r h }))) := by
  intro r maxMW nm hst p handler methods
  cases handler with
  | none =>
    refine ⟨iff_of_true ⟨_, rfl⟩ (Or.inl rfl), ?_⟩
    intro h hh
    exact absurd hh (by simp)
  | some h =>
    by_cases h1 : methods.length = 0
    · refine ⟨iff_of_true ⟨_, by rw [addRoute_some, if_pos h1]⟩
        (Or.inr (Or.inl (List.length_eq_zero.mp h1))), ?_⟩
      intro h' _ hnd
      exact absurd (Or.inl (List.length_eq_zero.mp h1)) hnd
    · by_cases h2 : p.length = 0 ∨ p.head? ≠ some '/'
      · refine ⟨iff_of_true ⟨_, by rw [addRoute_some, if_neg h1, if_pos h2]⟩
          ?_, ?_⟩
        · rcases h2 with h2 | h2
          · exact Or.inr (Or.inr (Or.inl (List.length_eq_zero.mp h2)))
          · exact Or.inr (Or.inr (Or.inr (Or.inl h2)))
        · intro h' _ hnd
          rcases h2 with h2 | h2
          · exact absurd (Or.inr (Or.inl (List.length_eq_zero.mp h2))) hnd
          · exact absurd (Or.inr (Or.inr (Or.inl h2))) hnd
      · by_cases h3 : hasDoubleSlash p = true
        · refine ⟨iff_of_true
            ⟨_, by rw [addRoute_some, if_neg h1, if_neg h2, if_pos h3]⟩
            (Or.inr (Or.inr (Or.inr (Or.inr (Or.inl h3))))), ?_⟩
          intro h' _ hnd
          exact absurd (Or.inr (Or.inr (Or.inr (Or.inl h3)))) hnd
        · by_cases h4 : composedMWLen r > maxMW
          · refine ⟨iff_of_true
              ⟨_, by rw [addRoute_some, if_neg h1, if_neg h2, if_neg h3,
                if_pos h4]⟩
              (Or.inr (Or.inr (Or.inr (Or.inr (Or.inr h4))))), ?_⟩
            intro h' _ hnd
            exact absurd (Or.inr (Or.inr (Or.inr (Or.inr h4)))) hnd
          · have hok : addRoute r maxMW nm hst p (some h) methods
                = Except.ok (methods.map (fun m =>
                    { name := nm, host := hst, path := p, method := m,
                      handler := regHandlerOf r h })) := by
              rw [addRoute_some, if_neg h1, if_neg h2, if_neg h3, if_neg h4]
            refine ⟨iff_of_false ?_ ?_, ?_⟩
            · rintro ⟨msg, hmsg⟩
              rw [hok] at hmsg
              exact Except.noConfusion hmsg
            · rintro (hc | hc | hc | hc | hc | hc)
              · exact Option.noConfusion hc
              · exact h1 (by simp [hc])
              · exact h2 (Or.inl (by simp [hc]))
              · exact h2 (Or.inr hc)
              · exact h3 hc
              · exact h4 hc
            · intro h' hh _
              cases hh
              exact hok

def c3route : RouteB :=
  { host := "", path := ['/', 'a'], name := "",
    mdwares := [], headers := [⟨"X-Key", []⟩] }

theorem c3_addRoute_validation_witness :
    addRoute c3route 4 "" "" ['/', 'a'] (some sampleHandler) ["GET", "HEAD"]
      = Except.ok (["GET", "HEAD"].map (fun m =>
          { name := "", host := "", path := ['/', 'a'], method := m,
            handler := regHandlerOf c3route sampleHandler })) :=
  (c3_addRoute_validation c3route 4 "" "" ['/', 'a'] (some sampleHandler)
    ["GET", "HEAD"]).2 sampleHandler rfl
    (by
      rintro (hc | hc | hc | hc | hc)
      · exact List.noConfusion hc
      · exact List.noConfusion hc
      · exact hc rfl
      · exact absurd hc (by decide)
      · exact absurd hc (by decide))

theorem runStopfsLoop_fresh (ids : List Nat) :
    runStopfsLoop (ids.map (fun i => { hid := i, ran := false }))
      = (ids.map (fun i => { hid := i, ran := true }),
         ids.reverse.map REv.hook) := by
  induction ids with
  | nil => rfl
  | cons i ids ih =>
    simp only [List.map_cons, runStopfsLoop, ih, runOnceHook, if_neg]
    simp [runOnceHook]

theorem runStopfsLoop_ran (ids : List Nat) :
    runStopfsLoop (ids.map (fun i => { hid := i, ran := true }))
      = (ids.map (fun i => { hid := i, ran := true }), []) := by
  induction ids with
  | nil => rfl
  | cons i ids ih => simp [runStopfsLoop, ih, runOnceHook]

/-- C4: stopping runs the registered shutdown hooks in reverse
registration order, releases the completion gate only after the hook
loop has finished (the gate event is the last event, after every hook
event), and each hook is a one-shot: a second pass over already-run
hooks executes none of them, and the one-shot stop guard makes a second
stop trigger a no-op. -/
theorem c4_reverse_hooks_once_then_done :
    ∀ ids : List Nat,
      runStopfs (ids.map (fun i => { hid := i, ran := false }))
        = (ids.map (fun i => { hid := i, ran := true }),
           ids.reverse.map REv.hook ++ [REv.closeDone])
      ∧ (runStopfs (ids.map (fun i => { hid := i, ran := true }))).2
          = [REv.closeDone]
      ∧ (∀ r : RunnerM, (stopRun (stopRun r).1).2 = [])
      ∧ (∀ hooks : List OnceSt,
          (runStopfs hooks).2.getLast? = some REv.closeDone) := by
  intro ids
  refine ⟨?_, ?_, ?_, ?_⟩
  · simp [runStopfs, runStopfsLoop_fresh]
  · simp [runStopfs, runStopfsLoop_ran]
  · intro r
    by_cases hs : r.stopRan
    · simp [stopRun, hs]
    · simp [stopRun, hs]
  · intro hooks
    simp [runStopfs]

/-- C9: calling Shutdown while no server has been set returns the
"not started" error, runs no hooks, emits no events, and leaves the
Runner state (hooks, gate) unchanged. -/
theorem c9_shutdown_before_start :
    ∀ (r : RunnerM) (serverErr : Option String), r.serverSet = false →
      shutdown r serverErr = (r, [], some "the server has not been started") := by
  intro r serverErr hs
  simp [shutdown, hs]

theorem c9_shutdown_before_start_witness :
    shutdown { serverSet := false, stopRan := false,
               hooks := [{ hid := 0, ran := false }], doneClosed := false } none
      = ({ serverSet := false, stopRan := false,
           hooks := [{ hid := 0, ran := false }], doneClosed := false },
         [], some "the server has not been started") :=
  c9_shutdown_before_start _ none rfl

def c5route : RouteB :=
  { host := "", path := ['/', 'p'], name := "",
    mdwares := [], headers := [⟨"X-Key", []⟩] }

def c5entry : RegEntry :=
  { name := "", host := "", path := ['/', 'p'], method := "GET",
    handler := regHandlerOf c5route sampleHandler }

/-- Counterexample to C5: a route registered with one header predicate;
a later `HasHeader` call changes the behaviour of the already-registered
handler.  On a request carrying X-Key, the registered handler succeeds
under the predicate list at registration time but rejects with 400
under the list after the post-registration `HasHeader("X-Other")`,
because the header-check closure reads the route's current predicate
list on every request. -/
theorem c5_counterexample :
    addRoute c5route 10 "" "" ['/', 'p'] (some sampleHandler) ["GET"]
        = Except.ok [c5entry]
    ∧ (c5entry.handler c5route.headers sampleCtx).2 = none
    ∧ (c5entry.handler (c5route.hasHeader "X-Other" []).headers sampleCtx).2
        = some ⟨400, "missing the header X-Other"⟩
    ∧ (c5entry.handler (c5route.hasHeader "X-Other" []).headers sampleCtx).2
        ≠ (c5entry.handler c5route.headers sampleCtx).2 := by
  refine ⟨rfl, rfl, ?_, ?_⟩
  · decide
  · decide

/-- C5 (amended): a method-selection call snapshots the middleware list
(Use/NoMiddlewares/Name/Host mutations never affect the registered
handler, and no mutation does when the predicate list was empty at
registration, the header middleware then being absent); but when
predicates existed at registration, the synthesized header middleware
reads the route's current predicate list at request time, so a
subsequent HasHeader call does retroactively extend the check performed
by the already-registered handler. -/
theorem c5_registration_snapshot_amended :
    ∀ (r : RouteB) (maxMW : Nat) (nm hst : String) (p : List Char)
      (h : Handler) (methods : List String) (entries : List RegEntry),
      addRoute r maxMW nm hst p (some h) methods = Except.ok entries →
      ∀ e ∈ entries,
        (∀ ms2, e.handler (r.use ms2).headers = e.handler r.headers)
        ∧ (∀ s, e.handler (r.setName s).headers = e.handler r.headers)
        ∧ (∀ s, e.handler (r.setHost s).headers = e.handler r.headers)
        ∧ e.handler r.noMiddlewares.headers = e.handler r.headers
        ∧ (r.headers = [] → ∀ live, e.handler live = wrapAny r.mdwares h)
        ∧ (r.headers ≠ [] → ∀ k vs,
            e.handler (r.hasHeader k vs).headers
              = wrapAny r.mdwares
                  (headerLoop (r.headers ++ [⟨canonicalHeaderKey k, vs⟩]) h)) := by
  intro r maxMW nm hst p h methods entries hok e he
  rcases List.mem_map.mp (addRoute_ok hok ▸ he) with ⟨m, _, rfl⟩
  refine ⟨fun ms2 => rfl, fun s => rfl, fun s => rfl, rfl, ?_, ?_⟩
  · intro hhd live
    simp only [regHandlerOf, hhd]
  · intro hne k vs
    match hh : r.headers with
    | [] => exact absurd hh hne
    | kv :: rest =>
      show regHandlerOf r h (r.headers ++ [⟨canonicalHeaderKey k, vs⟩]) = _
      simp only [regHandlerOf, hh]
      rw [wrapAny_append_single]

def c5entry2 : RegEntry :=
  { name := "n", host := "", path := ['/', 'p'], method := "GET",
    handler := regHandlerOf c5route sampleHandler }

theorem c5_registration_snapshot_amended_witness :
    (c5entry2.handler (c5route.use []).headers = c5entry2.handler c5route.headers)
    ∧ (c5route.headers ≠ [] →
        ∀ k vs, c5entry2.handler (c5route.hasHeader k vs).headers
          = wrapAny c5route.mdwares
              (headerLoop (c5route.headers ++ [⟨canonicalHeaderKey k, vs⟩])
                sampleHandler)) := by
  have h := c5_registration_snapshot_amended c5route 10 "n" "" ['/', 'p']
    sampleHandler ["GET"] [c5entry2] rfl c5entry2 (List.mem_singleton_self _)
  exact ⟨h.1 [], h.2.2.2.2.2⟩

/-- Inversion of a successful `newGroup`. -/
theorem newGroup_ok {pp p : List Char} {ms : List Middleware} {child : GroupB}
    (hk : newGroup pp p ms = Except.ok child) :
    child = { pfx := pp ++ trimSuffixSlash p, mdwares := ms } := by
  simp only [newGroup] at hk
  split at hk
  · exact absurd hk (by simp)
  · split at hk
    · exact absurd hk (by simp)
    · exact ((Except.ok.injEq _ _).mp hk).symm

/-- C6: a child group's prefix is the parent prefix concatenated with
its own trimmed prefix — hence, along a chain of `Group.Group` calls,
the concatenation of all ancestor prefixes; `Group.Group` inherits the
parent middlewares followed by the new ones, `Group.GroupNone` keeps
only the new ones. -/
theorem c6_group_prefix_and_middlewares :
    ∀ (g : GroupB) (p : List Char) (ms : List Middleware) (child : GroupB),
      (g.group p ms = Except.ok child →
        child.pfx = g.pfx ++ trimSuffixSlash p
        ∧ child.mdwares = g.mdwares ++ ms)
      ∧ (g.groupNone p ms = Except.ok child →
        child.pfx = g.pfx ++ trimSuffixSlash p ∧ child.mdwares = ms)
      ∧ (∀ (specs : List (List Char × List Middleware)) (gf : GroupB),
          descendGroups g specs = Except.ok gf →
          gf.pfx = g.pfx ++ (specs.map (fun s => trimSuffixSlash s.1)).flatten) := by
  intro g p ms child
  refine ⟨?_, ?_, ?_⟩
  · intro hk
    rw [newGroup_ok hk]
    exact ⟨rfl, rfl⟩
  · intro hk
    rw [newGroup_ok hk]
    exact ⟨rfl, rfl⟩
  · intro specs
    induction specs generalizing g with
    | nil =>
      intro gf hk
      cases hk
      simp
    | cons s rest ih =>
      intro gf hk
      rcases s with ⟨sp, sms⟩
      simp only [descendGroups] at hk
      split at hk
      · exact Except.noConfusion hk
      · rename_i child2 heq
        rw [ih child2 gf hk, newGroup_ok heq]
        simp

def c6group : GroupB := { pfx := ['/', 'a'], mdwares := [] }

theorem c6_group_prefix_and_middlewares_witness :
    ((GroupB.mk (['/', 'a'] ++ ['/', 'b']) []).pfx
        = c6group.pfx ++ trimSuffixSlash ['/', 'b', '/']
      ∧ (GroupB.mk (['/', 'a'] ++ ['/', 'b']) []).mdwares = c6group.mdwares ++ [])
    ∧ ((GroupB.mk (['/', 'a'] ++ ['/', 'b']) []).pfx
        = c6group.pfx ++ trimSuffixSlash ['/', 'b', '/']
      ∧ (GroupB.mk (['/', 'a'] ++ ['/', 'b']) []).mdwares = []) :=
  ⟨(c6_group_prefix_and_middlewares c6group ['/', 'b', '/'] []
      (GroupB.mk (['/', 'a'] ++ ['/', 'b']) [])).1 (by rfl),
   (c6_group_prefix_and_middlewares c6group ['/', 'b', '/'] []
      (GroupB.mk (['/', 'a'] ++ ['/', 'b']) [])).2.1 (by rfl)⟩

/-- C7: for the pair of handlers StaticFile registers on one path, the
HEAD metadata handler answers a readable file with status 200, no body,
the Etag header holding the hex content hash and the Content-Length
header holding the stat size; a failed open, stat or read yields a
500-classified error; a directory delegates to the not-found handler;
and registration installs exactly the GET streaming handler and the
HEAD metadata handler. -/
theorem c7_static_file_metadata :
    ∀ (hash : List Nat → List Nat) (nf : Handler) (fname : String) (ctx : Ctx),
      (∀ bytes size, ctx.fileOutcome fname = FileOutcome.content bytes size →
        (serveFileMetadata hash nf fname ctx).2 = none
        ∧ (serveFileMetadata hash nf fname ctx).1.respStatus = some 200
        ∧ (serveFileMetadata hash nf fname ctx).1.respBody = none
        ∧ (serveFileMetadata hash nf fname ctx).1.respHeaders.lookup "Etag"
            = some (hexOfBytes (hash bytes))
        ∧ (serveFileMetadata hash nf fname ctx).1.respHeaders.lookup
            "Content-Length" = some (Nat.repr size))
      ∧ (ctx.fileOutcome fname = FileOutcome.openErr →
        (serveFileMetadata hash nf fname ctx).2 = some ⟨500, "open error"⟩)
      ∧ (ctx.fileOutcome fname = FileOutcome.statErr →
        (serveFileMetadata hash nf fname ctx).2 = some ⟨500, "stat error"⟩)
      ∧ (∀ size, ctx.fileOutcome fname = FileOutcome.readErr size →
        (serveFileMetadata hash nf fname ctx).2 = some ⟨500, "read error"⟩)
      ∧ (ctx.fileOutcome fname = FileOutcome.isDir →
        serveFileMetadata hash nf fname ctx = nf ctx)
      ∧ (∀ bytes size, ctx.fileOutcome fname = FileOutcome.content bytes size →
        ctxFile nf fname ctx
          = ({ ctx with respStatus := some 200, respBody := some bytes }, none))
      ∧ (∀ (r : RouteB) (maxMW : Nat) (entries : List RegEntry),
        staticFile r maxMW hash nf fname = Except.ok entries →
        entries = [{ name := "", host := r.host, path := r.path, method := "GET",
                     handler := regHandlerOf r (ctxFile nf fname) },
                   { name := "", host := r.host, path := r.path, method := "HEAD",
                     handler := regHandlerOf r (serveFileMetadata hash nf fname) }]) := by
  intro hash nf fname ctx
  refine ⟨?_, ?_, ?_, ?_, ?_, ?_, ?_⟩
  · intro bytes size hfo
    simp only [serveFileMetadata, hfo]
    refine ⟨rfl, rfl, rfl, ?_, ?_⟩
    · simp [Ctx.setHeader, Ctx.noContent, List.lookup]
    · simp [Ctx.setHeader, Ctx.noContent, List.lookup]
  · intro hfo
    simp [serveFileMetadata, hfo]
  · intro hfo
    simp [serveFileMetadata, hfo]
  · intro size hfo
    simp [serveFileMetadata, hfo]
  · intro hfo
    simp [serveFileMetadata, hfo]
  · intro bytes size hfo
    simp [ctxFile, hfo]
  · intro r maxMW entries hk
    simp only [staticFile] at hk
    split at hk
    · exact Except.noConfusion hk
    · split at hk
      · exact Except.noConfusion hk
      · rename_i e1 heq1
        split at hk
        · exact Except.noConfusion hk
        · rename_i e2 heq2
          rw [(Except.ok.injEq _ _).mp hk.symm, addRoute_ok heq1, addRoute_ok heq2]
          rfl

def c7ctx : Ctx :=
  { reqHeader := fun _ => ""
    urlParam := fun _ => ""
    fileOutcome := fun _ => FileOutcome.content [0, 255] 2
    respHeaders := []
    respStatus := none
    respBody := none }

theorem c7_static_file_metadata_witness :
    (serveFileMetadata id sampleHandler "f" c7ctx).2 = none
    ∧ (serveFileMetadata id sampleHandler "f" c7ctx).1.respHeaders.lookup "Etag"
        = some (hexOfBytes (id [0, 255]))
    ∧ (serveFileMetadata id sampleHandler "f" c7ctx).1.respHeaders.lookup
        "Content-Length" = some (Nat.repr 2) := by
  have h := (c7_static_file_metadata id sampleHandler "f" c7ctx).1 [0, 255] 2 rfl
  exact ⟨h.1, h.2.2.2.1, h.2.2.2.2⟩

/-- C8: every file opened through the filesystem installed by
Route.Static (the onlyFileFS wrapper) answers Readdir with an empty
result for any count, whatever the underlying filesystem would
enumerate, while its read behaviour is the underlying file's; and
Route.Static is StaticFS over exactly this wrapper. -/
theorem c8_readdir_suppressed :
    (∀ (fs : String → Except String HFile) (nm : String) (f : HFile),
      onlyFileFSOpen fs nm = Except.ok f →
        (∀ count, f.readdirF count = ([], none))
        ∧ ∃ g, fs nm = Except.ok g ∧ f.readF = g.readF)
    ∧ (∀ (r : RouteB) (maxMW : Nat) (dirFS : String → Except String HFile)
        (nf : Handler) (fsrv : Ctx → Ctx),
        RouteB.static r maxMW dirFS nf fsrv
          = staticFS r maxMW (onlyFileFSOpen dirFS) nf fsrv) := by
  constructor
  · intro fs nm f hk
    simp only [onlyFileFSOpen] at hk
    split at hk
    · exact Except.noConfusion hk
    · rename_i g heq
      rw [← (Except.ok.injEq _ _).mp hk]
      exact ⟨fun count => rfl, g, heq, rfl⟩
  · intro r maxMW dirFS nf fsrv
    rfl

def c8underlying : HFile :=
  { readF := fun _ => ([7], none), readdirF := fun _ => (["child"], none) }

theorem c8_readdir_suppressed_witness :
    (notDirFile c8underlying).readdirF 5 = ([], none) :=
  ((c8_readdir_suppressed.1 (fun _ => Except.ok c8underlying) "x"
    (notDirFile c8underlying) rfl).1) 5

/-- C10: StaticFile and StaticFS fail fatally at registration time,
registering nothing, whenever the route path holds a `:` or `*`
character. -/
theorem c10_static_refuses_url_params :
    ∀ (r : RouteB) (maxMW : Nat) (hash : List Nat → List Nat) (nf : Handler)
      (fname : String) (fs : String → Except String HFile) (fsrv : Ctx → Ctx),
      (r.path.contains ':' = true ∨ r.path.contains '*' = true) →
      staticFile r maxMW hash nf fname
          = Except.error "URL parameters cannot be used when serving a static file"
      ∧ staticFS r maxMW fs nf fsrv
          = Except.error "URL parameters cannot be used when serving a static file" := by
  intro r maxMW hash nf fname fs fsrv hc
  constructor
  · simp only [staticFile]
    rw [if_pos hc]
  · simp only [staticFS]
    rw [if_pos hc]

def c10route : RouteB :=
  { host := "", path := ['/', 'x', '/', ':', 'i', 'd'], name := "",
    mdwares := [], headers := [] }

theorem c10_static_refuses_url_params_witness :
    staticFile c10route 5 id sampleHandler "f"
        = Except.error "URL parameters cannot be used when serving a static file"
    ∧ staticFS c10route 5 (fun _ => Except.error "e") sampleHandler id
        = Except.error "URL parameters cannot be used when serving a static file" :=
  c10_static_refuses_url_params c10route 5 id sampleHandler "f"
    (fun _ => Except.error "e") id (Or.inl (by decide))
